import Mathlib

/-!
Shallow embedding of the template-reconciliation engine of gds-idea-app-kit
(`src/gds_idea_app_kit/update.py` and `src/gds_idea_app_kit/manifest.py`).

Modelling conventions:
* The filesystem is an association list from absolute path to file content;
  `FS.writeFile` models `Path.write_text` (a later binding shadows an earlier
  one, `FS.read` takes the first binding).  Creating parent directories
  (`mkdir(parents=True)`) has no observable effect in a flat path→content map.
* Python strings are Lean `String`s; `str.replace` and `str.split(".")` are
  re-implemented on character lists (`pyReplace`, `splitDot`) so that the
  kernel can evaluate them; their semantics follows CPython for the non-empty
  separators and patterns actually used by the code.
* The SHA-256 hex digest of `hashlib` is abstracted as a parameter
  `digest : String → String`; `hash_file` keeps the source's tagged format
  `"sha256:" ++ digest content`.  No theorem below depends on properties of
  `digest`.
* `tomlkit` persistence is modelled structurally: a `PyProject` document is
  its preserved other content plus the optional `[tool.gds-idea-app-kit]`
  section, stored as a small TOML value tree (`TomlValue`).
* `click.echo` output and `sys.exit(1)` are modelled by the result type
  `UpdateResult` (`fatal` for the exit-1 paths); the advisory printed by
  `_check_version` goes to stderr only and carries no state, so
  `_check_version` is modelled as the Bool "was the warning emitted".
-/

namespace GdsIdeaAppKit

/-- Python `str.replace(old, new)` for an empty `old`: `new` is inserted
before every character and at the end (CPython semantics). -/
def replaceEmptyOld (new : List Char) : List Char → List Char
  | [] => new
  | c :: rest => new ++ c :: replaceEmptyOld new rest

/-- Fuel-indexed left-to-right non-overlapping replacement for a non-empty
pattern `old`; the fuel only needs to dominate the input length. -/
def replaceFuel (old new : List Char) : Nat → List Char → List Char
  | _, [] => []
  | 0, s => s
  | fuel + 1, c :: rest =>
    if (c :: rest).take old.length = old then
      new ++ replaceFuel old new fuel ((c :: rest).drop old.length)
    else
      c :: replaceFuel old new fuel rest

/-- Python `s.replace(old, new)`: every non-overlapping occurrence of `old`
in `s`, scanned left to right, is replaced by `new`. -/
def pyReplace (s old new : String) : String :=
  match old.data with
  | [] => ⟨replaceEmptyOld new.data s.data⟩
  | _ :: _ => ⟨replaceFuel old.data new.data s.data.length s.data⟩

/-- Python `s.split(".")` on character lists: splitting `[]` gives `[[]]`,
mirroring `"".split(".") == [""]`. -/
def splitDotAux : List Char → List (List Char)
  | [] => [[]]
  | c :: rest =>
    if c = '.' then [] :: splitDotAux rest
    else
      match splitDotAux rest with
      | [] => [[c]]
      | h :: t => (c :: h) :: t

/-- Python `s.split(".")`. -/
def splitDot (s : String) : List String :=
  (splitDotAux s.data).map (fun cs => ⟨cs⟩)

/-- Value of a decimal digit character, `none` for anything else. -/
def digitVal (c : Char) : Option Nat :=
  if '0' ≤ c ∧ c ≤ '9' then some (c.toNat - 48) else none

/-- Parse a non-empty all-digit character list as a natural number. -/
def digitsToNat : List Char → Option Nat
  | [] => none
  | [c] => digitVal c
  | c :: rest => do
    let d ← digitVal c
    let n ← digitsToNat rest
    pure (d * 10 ^ rest.length + n)

/-- Python `int(s)` on its core grammar: an optional single sign followed by
a non-empty run of decimal digits (the whitespace and underscore tolerance
of CPython's `int` is not exercised by version strings). -/
def pyInt (s : String) : Option Int :=
  match s.data with
  | '-' :: rest => (digitsToNat rest).map (fun n => -(n : Int))
  | '+' :: rest => (digitsToNat rest).map (fun n => (n : Int))
  | _ => (digitsToNat s.data).map (fun n => (n : Int))

/-- Code-point lexicographic strict order on character lists, as used by
Python's `<` on `str`. -/
def charListLt : List Char → List Char → Bool
  | [], [] => false
  | [], _ :: _ => true
  | _ :: _, [] => false
  | a :: as, b :: bs =>
    if a.toNat < b.toNat then true
    else if b.toNat < a.toNat then false
    else charListLt as bs

/-- Python `<` on strings. -/
def strLt (a b : String) : Bool :=
  charListLt a.data b.data

/-- Python `<=` on strings. -/
def strLe (a b : String) : Bool :=
  strLt a b || a == b

/-- Python `dict.get(key)` on an association list: the first binding wins
(our writers cons fresh bindings at the front). -/
def lookupStr : List (String × String) → String → Option String
  | [], _ => none
  | kv :: rest, key => if kv.1 = key then some kv.2 else lookupStr rest key

/-- The filesystem: an association list from absolute path to content. -/
def FS : Type := List (String × String)

/-- Content of the file at `p`, `none` when the file does not exist
(`Path.exists` is `(FS.read fs p).isSome`). -/
def FS.read (fs : FS) (p : String) : Option String :=
  lookupStr fs p

/-- `Path.write_text`: the new binding shadows any previous one. -/
def FS.writeFile (fs : FS) (p content : String) : FS :=
  (p, content) :: fs

/-! ## manifest.py -/

/-- Files that `update` manages, keyed by source location in the templates
directory; maps template source path to destination path in the project. -/
def TOOL_OWNED_FILES : List (String × String) :=
  [("common/devcontainer.json", ".devcontainer/devcontainer.json"),
   ("common/docker-compose.yml", ".devcontainer/docker-compose.yml"),
   ("dev_mocks/dev_mock_authoriser.json", "dev_mocks/dev_mock_authoriser.json"),
   ("dev_mocks/dev_mock_user.json", "dev_mocks/dev_mock_user.json")]

/-- Framework-specific files that `update` manages; the framework name is
substituted at runtime. -/
def FRAMEWORK_OWNED_FILES : List (String × String) :=
  [("Dockerfile", "app_src/Dockerfile")]

/-- Compute the tagged digest of a file's content: `f"sha256:{digest}"` with
the SHA-256 hex digest abstracted as `digest`.  The source's `hash_file`
takes a path and reads its bytes; callers below pair it with `FS.read`. -/
def hash_file (digest : String → String) (content : String) : String :=
  "sha256:" ++ digest content

/-- Full mapping of template source → project destination for a framework. -/
def get_tracked_files (framework : String) : List (String × String) :=
  TOOL_OWNED_FILES ++
    FRAMEWORK_OWNED_FILES.map (fun td => (framework ++ "/" ++ td.1, td.2))

/-- A TOML value as far as the manifest section needs: strings and tables. -/
inductive TomlValue : Type
  | str (s : String)
  | table (entries : List (String × TomlValue))

/-- Look a key up in a TOML table's entry list. -/
def lookupToml : List (String × TomlValue) → String → Option TomlValue
  | [], _ => none
  | kv :: rest, key => if kv.1 = key then some kv.2 else lookupToml rest key

/-- The parsed view of the `[tool.gds-idea-app-kit]` dict.  The source keeps
a plain dict and reads fields with `.get` at use sites, so every field that
may be absent is an `Option`; `files` defaults to the empty mapping like
`manifest.get("files", {})`. -/
structure Manifest : Type where
  framework : Option String
  app_name : Option String
  tool_version : Option String
  python_version : Option String
  files : List (String × String)
deriving DecidableEq

/-- A pyproject.toml document: all content outside the manifest section,
preserved verbatim on rewrite, plus the optional manifest section as a TOML
value. -/
structure PyProject : Type where
  other : String
  section? : Option TomlValue

/-- Read a string-valued field of the manifest table. -/
def tomlStrField (entries : List (String × TomlValue)) (key : String) : Option String :=
  match lookupToml entries key with
  | some (TomlValue.str s) => some s
  | _ => none

/-- Read the `files` table of the manifest table, keeping string entries. -/
def tomlFilesField (entries : List (String × TomlValue)) : List (String × String) :=
  match lookupToml entries "files" with
  | some (TomlValue.table fs) =>
      fs.filterMap (fun kv =>
        match kv.2 with
        | TomlValue.str s => some (kv.1, s)
        | _ => none)
  | _ => []

/-- Parse a manifest table into the field view used by the engine. -/
def manifestOfTable (entries : List (String × TomlValue)) : Manifest :=
  { framework := tomlStrField entries "framework"
    app_name := tomlStrField entries "app_name"
    tool_version := tomlStrField entries "tool_version"
    python_version := tomlStrField entries "python_version"
    files := tomlFilesField entries }

/-- Serialise an optional string field as zero or one table entries, the way
a dict built by `build_manifest`/`_update_manifest` holds exactly the keys
that were assigned. -/
def optField (key : String) : Option String → List (String × TomlValue)
  | none => []
  | some v => [(key, TomlValue.str v)]

/-- Serialise a manifest to its TOML table. -/
def manifestToToml (m : Manifest) : TomlValue :=
  TomlValue.table
    (optField "framework" m.framework ++
     optField "app_name" m.app_name ++
     optField "tool_version" m.tool_version ++
     optField "python_version" m.python_version ++
     [("files", TomlValue.table (m.files.map (fun kv => (kv.1, TomlValue.str kv.2))))])

/-- Read `[tool.gds-idea-app-kit]` from pyproject.toml: `none` when the
section is absent (the source returns `{}` there, which `run_update` treats
as fatal). -/
def read_manifest (d : PyProject) : Option Manifest :=
  match d.section? with
  | some (TomlValue.table entries) => some (manifestOfTable entries)
  | _ => none

/-- Write `[tool.gds-idea-app-kit]` into pyproject.toml, preserving all
other content. -/
def write_manifest (d : PyProject) (m : Manifest) : PyProject :=
  { other := d.other, section? := some (manifestToToml m) }

/-- Python `sorted` on `(String × String)` pairs: lexicographic tuple
order, key first.  In the dict uses below keys are unique, so the value
comparison is a tie-break that never fires. -/
def pairLe (a b : String × String) : Bool :=
  strLt a.1 b.1 || (a.1 == b.1 && strLe a.2 b.2)

/-- Insert a pair into an already sorted list, before the first element it
is `pairLe`-below. -/
def insertPair (x : String × String) : List (String × String) → List (String × String)
  | [] => [x]
  | y :: ys => if pairLe x y then x :: y :: ys else y :: insertPair x ys

/-- Insertion sort implementing Python's `sorted(d.items())`. -/
def sortPairs : List (String × String) → List (String × String)
  | [] => []
  | x :: xs => insertPair x (sortPairs xs)

/-- Build a manifest dict by hashing the tracked files that exist in
`project_dir` (destination paths of the tracked mapping are pairwise
distinct, so the association-list `files` has unique keys). -/
def build_manifest (digest : String → String) (fs : FS)
    (framework app_name tool_version project_dir : String) : Manifest :=
  { framework := some framework
    app_name := some app_name
    tool_version := some tool_version
    python_version := none
    files :=
      (sortPairs (get_tracked_files framework)).filterMap (fun td =>
        match fs.read (project_dir ++ "/" ++ td.2) with
        | some content => some (td.2, hash_file digest content)
        | none => none) }

/-! ## update.py -/

/-- What to do with a tracked file during update. -/
inductive Action : Type
  | CREATE  -- file missing from project
  | UPDATE  -- file unchanged from manifest, overwrite with latest
  | SKIP    -- locally modified, write .new alongside
  | FORCE   -- locally modified, overwrite anyway (--force)
deriving DecidableEq

/-- A planned update action for a single tracked file. -/
structure FileUpdate : Type where
  dest_path : String
  dest_full : String
  new_content : String
  action : Action
deriving DecidableEq

/-- Parse a dotted version string into a tuple of integers for comparison;
`none` models the `ValueError` that `int(x)` raises on a non-numeric
component. -/
def _parse_version (version : String) : Option (List Int) :=
  (splitDot version).mapM pyInt

/-- Python `<` on integer tuples: lexicographic, a strict non-empty
extension of a tuple is greater. -/
def tupleLt : List Int → List Int → Bool
  | [], [] => false
  | [], _ :: _ => true
  | _ :: _, [] => false
  | a :: as, b :: bs =>
    if a < b then true
    else if b < a then false
    else tupleLt as bs

/-- Did `_check_version` print its stderr advisory?  The source compares
`_parse_version(__version__) < _parse_version(manifest.get("tool_version",
"0.0.0"))` inside `try ... except (ValueError, TypeError): pass`, so a
parse failure on either side makes the whole check a silent no-op. -/
def _check_version (version : String) (manifest_tool_version : Option String) : Bool :=
  let manifest_version := manifest_tool_version.getD "0.0.0"
  match _parse_version version, _parse_version manifest_version with
  | some v, some mv => tupleLt v mv
  | _, _ => false

/-- Apply template variable substitution: replaces each placeholder
"\x7b\x7bkey\x7d\x7d" with its value, in insertion order of `variables`
(from `init.py`). -/
def _apply_template_vars (content : String) (vars : List (String × String)) : String :=
  vars.foldl
    (fun c kv => pyReplace c ("\x7b\x7b" ++ kv.1 ++ "\x7d\x7d") kv.2) content

/-- Read a template file from the bundled templates store and render it;
`none` when the template file does not exist (the planner checks existence
before calling `_render_template`). -/
def _render_template (templates : List (String × String)) (template_src : String)
    (template_vars : List (String × String)) : Option String :=
  (lookupStr templates template_src).map
    (fun content => _apply_template_vars content template_vars)

/-- Determine the action for a single tracked file.  `dest_full.exists()`
and the read done by `hash_file` are the single association-list lookup. -/
def _classify_file (digest : String → String) (fs : FS) (dest_full : String)
    (manifest_hashes : List (String × String)) (dest_path : String)
    (force : Bool) : Action :=
  match fs.read dest_full with
  | none => Action.CREATE
  | some content =>
    let current_hash := hash_file digest content
    let is_modified : Bool :=
      match lookupStr manifest_hashes dest_path with
      | none => false
      | some manifest_hash => current_hash != manifest_hash
    if !is_modified then Action.UPDATE
    else if force then Action.FORCE else Action.SKIP

/-- The planned item for a tracked entry whose template resolves; rendered
content comes from `raw` (the template file's content). -/
def mkFileUpdate (digest : String → String) (fs : FS) (project_dir : String)
    (template_vars manifest_hashes : List (String × String))
    (force : Bool) (dest_path raw : String) : FileUpdate :=
  let new_content := _apply_template_vars raw template_vars
  let dest_full := project_dir ++ "/" ++ dest_path
  let action := _classify_file digest fs dest_full manifest_hashes dest_path force
  ⟨dest_path, dest_full, new_content, action⟩

/-- Build the update plan: iterate `sorted(tracked.items())`, skip entries
whose bundled template file is missing, classify the rest.  A pure planning
step, no filesystem writes. -/
def _plan_updates (digest : String → String) (fs : FS) (project_dir : String)
    (tracked templates template_vars manifest_hashes : List (String × String))
    (force : Bool) : List FileUpdate :=
  (sortPairs tracked).filterMap (fun td =>
    match lookupStr templates td.1 with
    | none => none
    | some raw =>
        some (mkFileUpdate digest fs project_dir template_vars manifest_hashes
          force td.2 raw))

/-- The path a plan item writes to: its destination for `CREATE`, `UPDATE`
and `FORCE`, the `.new` sidecar for `SKIP`. -/
def writeTarget (item : FileUpdate) : String :=
  if item.action = Action.SKIP then item.dest_full ++ ".new" else item.dest_full

/-- Write files to disk based on the update plan: `SKIP` writes the sidecar
alongside the untouched original, every other action overwrites the
destination. -/
def _apply_updates (plan : List FileUpdate) (fs : FS) : FS :=
  match plan with
  | [] => fs
  | item :: rest => _apply_updates rest (fs.writeFile (writeTarget item) item.new_content)

/-- `any(item.action in (Action.CREATE, Action.UPDATE, Action.FORCE) for
item in plan)` from `run_update`. -/
def hasWrites (plan : List FileUpdate) : Bool :=
  plan.any (fun item =>
    item.action == Action.CREATE || item.action == Action.UPDATE ||
      item.action == Action.FORCE)

/-- `if not framework` / `if not app_name`: a missing key or an empty
string is falsy. -/
def falsyStr : Option String → Bool
  | none => true
  | some s => s == ""

/-- The template variables `run_update` prepares from the manifest.  At the
call site `app_name` is known non-falsy; `python_version` defaults to
"3.13" like `manifest.get("python_version", "3.13")`. -/
def templateVarsOf (m : Manifest) : List (String × String) :=
  let python_version := m.python_version.getD "3.13"
  [("app_name", m.app_name.getD ""),
   ("python_version", python_version),
   ("python_version_nodot", pyReplace python_version "." "")]

/-- The plan `run_update` computes for manifest `m`. -/
def planOf (digest : String → String) (fs : FS) (m : Manifest)
    (templates : List (String × String)) (project_dir : String)
    (force : Bool) : List FileUpdate :=
  _plan_updates digest fs project_dir (get_tracked_files (m.framework.getD ""))
    templates (templateVarsOf m) m.files force

/-- The manifest `_update_manifest` rebuilds after applying updates: a fresh
`build_manifest` over the post-apply filesystem, with `tool_version` set to
the running tool's version and `python_version` carried over. -/
def manifestAfter (digest : String → String) (fs2 : FS) (m : Manifest)
    (version project_dir : String) : Manifest :=
  let nm := build_manifest digest fs2 (m.framework.getD "") (m.app_name.getD "")
    version project_dir
  { nm with python_version := some (m.python_version.getD "3.13") }

/-- Outcome of `run_update`: `fatal` models the `sys.exit(1)` precondition
failures, `ok` carries the final filesystem and pyproject document. -/
inductive UpdateResult : Type
  | fatal
  | ok (fs : FS) (doc : PyProject)

/-- Update managed files in an existing project.  `doc` is `none` when no
pyproject.toml exists; `version` is the running tool's `__version__`
(passed explicitly rather than read from the module global); the
`_check_version` advisory and all `click.echo` reporting carry no state and
are omitted from the result. -/
def run_update (digest : String → String) (version : String) (fs : FS)
    (doc : Option PyProject) (templates : List (String × String))
    (project_dir : String) (dry_run force : Bool) : UpdateResult :=
  match doc with
  | none => UpdateResult.fatal
  | some d =>
    match read_manifest d with
    | none => UpdateResult.fatal
    | some m =>
      if falsyStr m.framework || falsyStr m.app_name then UpdateResult.fatal
      else
        let plan := planOf digest fs m templates project_dir force
        let fs2 := if dry_run then fs else _apply_updates plan fs
        let doc2 :=
          if !dry_run && hasWrites plan then
            write_manifest d (manifestAfter digest fs2 m version project_dir)
          else d
        UpdateResult.ok fs2 doc2

/-! ## Helper lemmas -/

theorem read_writeFile (fs : FS) (p q content : String) :
    FS.read (fs.writeFile p content) q = if p = q then some content else fs.read q := by
  simp [FS.read, FS.writeFile, lookupStr]

theorem apply_frame (plan : List FileUpdate) (fs : FS) (p : String)
    (h : ∀ j ∈ plan, writeTarget j ≠ p) :
    FS.read (_apply_updates plan fs) p = fs.read p := by
  induction plan generalizing fs with
  | nil => rfl
  | cons item rest ih =>
    rw [_apply_updates, ih _ (fun j hj => h j (List.mem_cons_of_mem _ hj)),
      read_writeFile, if_neg (h item (List.mem_cons_self _ _))]

theorem apply_keeps (plan : List FileUpdate) (fs : FS) (p c : String)
    (h : ∀ j ∈ plan, writeTarget j = p → j.new_content = c)
    (hfs : fs.read p = some c) :
    FS.read (_apply_updates plan fs) p = some c := by
  induction plan generalizing fs with
  | nil => exact hfs
  | cons item rest ih =>
    rw [_apply_updates]
    refine ih _ (fun j hj => h j (List.mem_cons_of_mem _ hj)) ?_
    rw [read_writeFile]
    by_cases htar : writeTarget item = p
    · rw [if_pos htar, h item (List.mem_cons_self _ _) htar]
    · rw [if_neg htar]; exact hfs

theorem apply_sets (plan : List FileUpdate) (fs : FS) (item : FileUpdate) (p : String)
    (hmem : item ∈ plan) (htar : writeTarget item = p)
    (h : ∀ j ∈ plan, writeTarget j = p → j.new_content = item.new_content) :
    FS.read (_apply_updates plan fs) p = some item.new_content := by
  induction plan generalizing fs with
  | nil => exact absurd hmem (List.not_mem_nil _)
  | cons hd rest ih =>
    rw [_apply_updates]
    by_cases hhd : writeTarget hd = p
    · refine apply_keeps _ _ _ _ (fun j hj => h j (List.mem_cons_of_mem _ hj)) ?_
      rw [read_writeFile, if_pos hhd, h hd (List.mem_cons_self _ _) hhd]
    · rcases List.mem_cons.mp hmem with heq | hrest
      · exact absurd (heq ▸ htar) hhd
      · exact ih _ hrest (fun j hj => h j (List.mem_cons_of_mem _ hj))

theorem toNat_eq_char_eq {c d : Char} (h : c.toNat = d.toNat) : c = d := by
  have := Char.ofNat_toNat c
  rw [h, Char.ofNat_toNat] at this
  exact this.symm

theorem charListLt_asymm_eq (a : List Char) : ∀ b, charListLt a b = false →
    charListLt b a = false → a = b := by
  induction a with
  | nil =>
    intro b hab _
    cases b with
    | nil => rfl
    | cons d ds => simp [charListLt] at hab
  | cons c cs ih =>
    intro b hab hba
    cases b with
    | nil => simp [charListLt] at hba
    | cons d ds =>
      rw [charListLt] at hab hba
      by_cases h1 : c.toNat < d.toNat
      · rw [if_pos h1] at hab; exact absurd hab (by simp)
      · rw [if_neg h1] at hab
        by_cases h2 : d.toNat < c.toNat
        · rw [if_pos h2] at hba; exact absurd hba (by simp)
        · rw [if_neg h2] at hab
          rw [if_neg (fun h => h1 h), if_neg (fun h => h2 h)] at hba
          have hcd : c = d := toNat_eq_char_eq (Nat.le_antisymm
            (Nat.le_of_not_lt h2) (Nat.le_of_not_lt h1))
          rw [hcd, ih ds hab hba]

theorem strLt_asymm_eq {a b : String} (hab : strLt a b = false)
    (hba : strLt b a = false) : a = b := by
  have h := charListLt_asymm_eq a.data b.data hab hba
  cases a
  cases b
  exact congrArg String.mk h

theorem strLe_total (a b : String) (h : strLe a b = false) : strLe b a = true := by
  rw [strLe, Bool.or_eq_false_iff] at h
  rw [strLe]
  by_cases hba : strLt b a = true
  · simp [hba]
  · have : a = b := strLt_asymm_eq h.1 (Bool.eq_false_iff.mpr hba)
    simp [this]

theorem pairLe_total (a b : String × String) (h : pairLe a b = false) :
    pairLe b a = true := by
  rw [pairLe, Bool.or_eq_false_iff, Bool.and_eq_false_iff] at h
  obtain ⟨h1, h2⟩ := h
  rw [pairLe]
  by_cases hlt : strLt b.1 a.1 = true
  · simp [hlt]
  · have heq : a.1 = b.1 := strLt_asymm_eq h1 (Bool.eq_false_iff.mpr hlt)
    rcases h2 with h2 | h2
    · rw [heq] at h2; simp at h2
    · have := strLe_total a.2 b.2 h2
      simp [heq, this]

theorem chain_insertPair (x : String × String) (l : List (String × String))
    (h : List.Chain' (fun a b => pairLe a b = true) l) :
    List.Chain' (fun a b => pairLe a b = true) (insertPair x l) := by
  induction l with
  | nil => simp [insertPair]
  | cons y ys ih =>
    rw [insertPair]
    by_cases hle : pairLe x y = true
    · rw [if_pos hle]
      exact List.Chain'.cons hle h
    · rw [if_neg hle]
      have hyx : pairLe y x = true := pairLe_total x y (Bool.eq_false_iff.mpr hle)
      have hys := h.tail
      have hins := ih hys
      cases ys with
      | nil => exact List.chain'_pair.mpr hyx
      | cons z zs =>
        rw [insertPair] at hins ⊢
        by_cases hz : pairLe x z = true
        · rw [if_pos hz] at hins ⊢
          exact List.Chain'.cons hyx hins
        · rw [if_neg hz] at hins ⊢
          exact List.Chain'.cons (List.chain'_cons.mp h).1 hins

theorem chain_sortPairs (l : List (String × String)) :
    List.Chain' (fun a b => pairLe a b = true) (sortPairs l) := by
  induction l with
  | nil => simp [sortPairs]
  | cons x xs ih => exact chain_insertPair x _ ih

theorem insertPair_perm (x : String × String) (l : List (String × String)) :
    List.Perm (insertPair x l) (x :: l) := by
  induction l with
  | nil => rfl
  | cons y ys ih =>
    rw [insertPair]
    by_cases hle : pairLe x y = true
    · rw [if_pos hle]
    · rw [if_neg hle]
      exact (List.Perm.cons y ih).trans (List.Perm.swap x y ys)

theorem sortPairs_perm (l : List (String × String)) : List.Perm (sortPairs l) l := by
  induction l with
  | nil => rfl
  | cons x xs ih => exact (insertPair_perm x _).trans (List.Perm.cons x ih)

theorem filterMap_plan_eq (digest : String → String) (fs : FS) (project_dir : String)
    (templates template_vars manifest_hashes : List (String × String)) (force : Bool)
    (l : List (String × String)) :
    l.filterMap (fun td =>
        match lookupStr templates td.1 with
        | none => none
        | some raw =>
            some (mkFileUpdate digest fs project_dir template_vars manifest_hashes
              force td.2 raw))
      = (l.filter (fun td => (lookupStr templates td.1).isSome)).map
          (fun td => mkFileUpdate digest fs project_dir template_vars manifest_hashes
            force td.2 ((lookupStr templates td.1).getD "")) := by
  induction l with
  | nil => rfl
  | cons td rest ih =>
    rw [List.filterMap_cons, List.filter_cons]
    cases h : lookupStr templates td.1 with
    | none => simp only [h, Option.isSome_none, ih]; rfl
    | some raw =>
      simp only [h, Option.isSome_some, if_pos]
      rw [List.map_cons, ih]
      simp [h]

theorem plan_updates_eq (digest : String → String) (fs : FS) (project_dir : String)
    (tracked templates template_vars manifest_hashes : List (String × String))
    (force : Bool) :
    _plan_updates digest fs project_dir tracked templates template_vars manifest_hashes force
      = ((sortPairs tracked).filter (fun td => (lookupStr templates td.1).isSome)).map
          (fun td => mkFileUpdate digest fs project_dir template_vars manifest_hashes
            force td.2 ((lookupStr templates td.1).getD "")) :=
  filterMap_plan_eq digest fs project_dir templates template_vars manifest_hashes force _

theorem mem_plan_shape (digest : String → String) (fs : FS) (project_dir : String)
    (tracked templates template_vars manifest_hashes : List (String × String))
    (force : Bool) (item : FileUpdate)
    (hmem : item ∈ _plan_updates digest fs project_dir tracked templates template_vars
      manifest_hashes force) :
    item.dest_full = project_dir ++ "/" ++ item.dest_path
    ∧ item.action = _classify_file digest fs (project_dir ++ "/" ++ item.dest_path)
        manifest_hashes item.dest_path force
    ∧ ∃ src, (src, item.dest_path) ∈ sortPairs tracked
        ∧ (lookupStr templates src).isSome = true := by
  rw [plan_updates_eq] at hmem
  obtain ⟨td, htd, heq⟩ := List.mem_map.mp hmem
  have hdest : item.dest_path = td.2 := by rw [← heq]; rfl
  have hfull : item.dest_full = project_dir ++ "/" ++ td.2 := by rw [← heq]; rfl
  have hact : item.action = _classify_file digest fs (project_dir ++ "/" ++ td.2)
      manifest_hashes td.2 force := by rw [← heq]; rfl
  refine ⟨by rw [hfull, hdest], by rw [hact, hdest], td.1, ?_, ?_⟩
  · rw [hdest]
    exact List.mem_filter.mp htd |>.1
  · exact List.mem_filter.mp htd |>.2

theorem classify_skip_inv (digest : String → String) (fs : FS)
    (dest_full : String) (manifest_hashes : List (String × String))
    (dest_path : String) (force : Bool)
    (h : _classify_file digest fs dest_full manifest_hashes dest_path force = Action.SKIP) :
    ∃ content, fs.read dest_full = some content
    ∧ ∃ mh, lookupStr manifest_hashes dest_path = some mh
        ∧ hash_file digest content ≠ mh := by
  rw [_classify_file] at h
  cases hr : fs.read dest_full with
  | none => rw [hr] at h; exact absurd h (by simp)
  | some content =>
    rw [hr] at h
    refine ⟨content, rfl, ?_⟩
    cases hm : lookupStr manifest_hashes dest_path with
    | none => rw [hm] at h; simp at h
    | some mh =>
      rw [hm] at h
      refine ⟨mh, rfl, ?_⟩
      intro heq
      simp [heq] at h

theorem files_table_roundtrip (l : List (String × String)) :
    l.filterMap ((fun kv =>
      match kv.2 with
      | TomlValue.str s => some (kv.1, s)
      | _ => none) ∘ fun kv => (kv.1, TomlValue.str kv.2)) = l := by
  induction l with
  | nil => rfl
  | cons kv rest ih => exact congrArg (List.cons (kv.1, kv.2)) ih

theorem manifest_roundtrip (d : PyProject) (m : Manifest) :
    read_manifest (write_manifest d m) = some m := by
  obtain ⟨fw, an, tv, pv, files⟩ := m
  cases fw <;> cases an <;> cases tv <;> cases pv <;>
    simp [write_manifest, read_manifest, manifestToToml, manifestOfTable,
      tomlStrField, tomlFilesField, optField, lookupToml, files_table_roundtrip]

theorem tracked_dests_nodup (framework : String) :
    ((get_tracked_files framework).map (fun td => td.2)).Nodup := by
  simp only [get_tracked_files, TOOL_OWNED_FILES, FRAMEWORK_OWNED_FILES,
    List.map_append, List.map_map, List.map_cons, List.map_nil]
  decide

theorem sorted_tracked_dests_nodup (framework : String) :
    ((sortPairs (get_tracked_files framework)).map (fun td => td.2)).Nodup :=
  ((sortPairs_perm _).map _).nodup_iff.mpr (tracked_dests_nodup framework)

theorem lookup_hashes (digest : String → String) (fs : FS) (project_dir : String)
    (td : String × String) (c : String) (l : List (String × String))
    (hnd : (l.map (fun x => x.2)).Nodup) (hmem : td ∈ l)
    (hread : fs.read (project_dir ++ "/" ++ td.2) = some c) :
    lookupStr (l.filterMap (fun x =>
      match fs.read (project_dir ++ "/" ++ x.2) with
      | some content => some (x.2, hash_file digest content)
      | none => none)) td.2 = some (hash_file digest c) := by
  induction l with
  | nil => exact absurd hmem (List.not_mem_nil _)
  | cons hd rest ih =>
    rw [List.map_cons, List.nodup_cons] at hnd
    rw [List.filterMap_cons]
    rcases List.mem_cons.mp hmem with heq | hrest
    · subst heq
      rw [hread]
      simp [lookupStr]
    · have hne : hd.2 ≠ td.2 := by
        intro h
        exact hnd.1 (h ▸ List.mem_map_of_mem _ hrest)
      cases hr : fs.read (project_dir ++ "/" ++ hd.2) with
      | none => exact ih hnd.2 hrest
      | some c2 =>
        rw [show lookupStr ((hd.2, hash_file digest c2) :: rest.filterMap _) td.2
            = lookupStr (rest.filterMap _) td.2 from by
          rw [lookupStr, if_neg hne]]
        exact ih hnd.2 hrest

theorem run_update_ok (digest : String → String) (version : String) (fs : FS)
    (d : PyProject) (templates : List (String × String)) (project_dir : String)
    (dry_run force : Bool) (m : Manifest)
    (hm : read_manifest d = some m)
    (hfw : falsyStr m.framework = false) (han : falsyStr m.app_name = false) :
    run_update digest version fs (some d) templates project_dir dry_run force
      = UpdateResult.ok
          (if dry_run then fs
           else _apply_updates (planOf digest fs m templates project_dir force) fs)
          (if !dry_run && hasWrites (planOf digest fs m templates project_dir force) then
            write_manifest d (manifestAfter digest
              (if dry_run then fs
               else _apply_updates (planOf digest fs m templates project_dir force) fs)
              m version project_dir)
          else d) := by
  simp [run_update, hm, hfw, han]

/-! ## Concrete fixture: a streamlit project whose tracked Dockerfile was
locally edited, with the other tracked files missing from the project. -/

def exDigest : String → String := fun s => s

def exTemplates : List (String × String) :=
  [("common/devcontainer.json", "DC"), ("common/docker-compose.yml", "CO"),
   ("dev_mocks/dev_mock_authoriser.json", "AU"), ("dev_mocks/dev_mock_user.json", "US"),
   ("streamlit/Dockerfile", "FROM")]

def exManifest : Manifest :=
  { framework := some "streamlit", app_name := some "app",
    tool_version := some "0.1.0", python_version := some "3.13",
    files := [("app_src/Dockerfile", "sha256:orig")] }

def exDoc : PyProject :=
  { other := "[project]", section? := some (manifestToToml exManifest) }

def exFs : FS := ([("proj/app_src/Dockerfile", "edited")] : List (String × String))

def exPlan : List FileUpdate := planOf exDigest exFs exManifest exTemplates "proj" false

def exResult : UpdateResult :=
  run_update exDigest "0.1.0" exFs (some exDoc) exTemplates "proj" false false

/-- The document an update run produced, `none` on the fatal paths. -/
def resultDoc : UpdateResult → Option PyProject
  | UpdateResult.ok _ doc => some doc
  | UpdateResult.fatal => none

/-- Is a list of strings in ascending (Python `<=`) order? -/
def strAscending : List String → Bool
  | [] => true
  | [_] => true
  | a :: b :: rest => strLe a b && strAscending (b :: rest)

/-! ## Claims -/

/-- C1: the classifier is total over (file exists, current hash, manifest
hash, force) and follows the precedence table: a missing file is `CREATE`
whatever the other inputs; an existing file with no manifest entry or with
its current hash equal to the manifest hash is `UPDATE` whatever `force`
is; an existing, recorded file whose hash differs is `SKIP` without
`--force` and `FORCE` with it. -/
theorem classify_precedence :
    (∀ (digest : String → String) (fs : FS) dest_full mh dest_path force,
        fs.read dest_full = none →
        _classify_file digest fs dest_full mh dest_path force = Action.CREATE)
  ∧ (∀ (digest : String → String) (fs : FS) dest_full mh dest_path force content,
        fs.read dest_full = some content →
        (lookupStr mh dest_path = none ∨
          lookupStr mh dest_path = some (hash_file digest content)) →
        _classify_file digest fs dest_full mh dest_path force = Action.UPDATE)
  ∧ (∀ (digest : String → String) (fs : FS) dest_full mh dest_path content h,
        fs.read dest_full = some content →
        lookupStr mh dest_path = some h →
        hash_file digest content ≠ h →
        _classify_file digest fs dest_full mh dest_path false = Action.SKIP)
  ∧ (∀ (digest : String → String) (fs : FS) dest_full mh dest_path content h,
        fs.read dest_full = some content →
        lookupStr mh dest_path = some h →
        hash_file digest content ≠ h →
        _classify_file digest fs dest_full mh dest_path true = Action.FORCE) := by
  refine ⟨?_, ?_, ?_, ?_⟩
  · intro digest fs dest_full mh dest_path force h
    simp [_classify_file, h]
  · intro digest fs dest_full mh dest_path force content h hmh
    rcases hmh with hmh | hmh <;> simp [_classify_file, h, hmh]
  · intro digest fs dest_full mh dest_path content mhv h hm hne
    simp [_classify_file, h, hm, hne]
  · intro digest fs dest_full mh dest_path content mhv h hm hne
    simp [_classify_file, h, hm, hne]

/-- Witness for C1: each row of the precedence table at a concrete input. -/
theorem classify_precedence_witness :
    _classify_file (fun s => s) ([] : FS) "proj/f" [] "f" false = Action.CREATE
  ∧ _classify_file (fun s => s) (([("proj/f", "x")] : List (String × String)) : FS)
      "proj/f" [] "f" false = Action.UPDATE
  ∧ _classify_file (fun s => s) (([("proj/f", "x")] : List (String × String)) : FS)
      "proj/f" [("f", "sha256:y")] "f" false = Action.SKIP
  ∧ _classify_file (fun s => s) (([("proj/f", "x")] : List (String × String)) : FS)
      "proj/f" [("f", "sha256:y")] "f" true = Action.FORCE :=
  ⟨classify_precedence.1 _ _ _ _ _ _ rfl,
   classify_precedence.2.1 _ _ _ _ _ _ _ rfl (Or.inl rfl),
   classify_precedence.2.2.1 _ _ _ _ _ _ _ rfl rfl (by decide),
   classify_precedence.2.2.2 _ _ _ _ _ _ _ rfl rfl (by decide)⟩

/-- C3: applying a plan leaves a `SKIP` item's destination untouched and
writes the rendered content to the `.new` sidecar path, provided no other
plan item targets those two paths with different content. -/
theorem apply_skip_sidecar (plan : List FileUpdate) (fs : FS) (item : FileUpdate)
    (hmem : item ∈ plan) (hskip : item.action = Action.SKIP)
    (hdest : ∀ j ∈ plan, writeTarget j ≠ item.dest_full)
    (hside : ∀ j ∈ plan, writeTarget j = item.dest_full ++ ".new" →
      j.new_content = item.new_content) :
    FS.read (_apply_updates plan fs) item.dest_full = fs.read item.dest_full
  ∧ FS.read (_apply_updates plan fs) (item.dest_full ++ ".new")
      = some item.new_content := by
  refine ⟨apply_frame plan fs _ hdest, ?_⟩
  exact apply_sets plan fs item _ hmem (by rw [writeTarget, if_pos hskip]) hside

/-- Witness for C3: a one-item `SKIP` plan over a file holding user content. -/
theorem apply_skip_sidecar_witness :
    FS.read (_apply_updates [⟨"f.txt", "proj/f.txt", "template", Action.SKIP⟩]
        (([("proj/f.txt", "user")] : List (String × String)) : FS)) "proj/f.txt"
      = FS.read (([("proj/f.txt", "user")] : List (String × String)) : FS) "proj/f.txt"
  ∧ FS.read (_apply_updates [⟨"f.txt", "proj/f.txt", "template", Action.SKIP⟩]
        (([("proj/f.txt", "user")] : List (String × String)) : FS)) ("proj/f.txt" ++ ".new")
      = some "template" :=
  apply_skip_sidecar _ _ _ (List.mem_singleton.mpr rfl) rfl (by decide) (by decide)

/-- C4: a dry run either fails a fatal precondition or returns with the
filesystem and the pyproject document both exactly as they were: the
applier never runs and the manifest is never rewritten. -/
theorem dry_run_purity (digest : String → String) (version : String) (fs : FS)
    (d : PyProject) (templates : List (String × String)) (project_dir : String)
    (force : Bool) :
    run_update digest version fs (some d) templates project_dir true force
      = UpdateResult.fatal
  ∨ run_update digest version fs (some d) templates project_dir true force
      = UpdateResult.ok fs d := by
  cases hm : read_manifest d with
  | none => left; simp [run_update, hm]
  | some m =>
    by_cases hcond : (falsyStr m.framework || falsyStr m.app_name) = true
    · left; simp [run_update, hm, hcond]
    · right
      rw [Bool.or_eq_true, not_or] at hcond
      rw [run_update_ok digest version fs d templates project_dir true force m hm
        (Bool.eq_false_iff.mpr hcond.1) (Bool.eq_false_iff.mpr hcond.2)]
      simp

/-- C5 counterexample: for the streamlit tracked set with every template
present, the plan's destination paths come out in template-source order, in
which `app_src/Dockerfile` is listed last — not in ascending destination
order. -/
theorem plan_dest_order_counterexample :
    strAscending (exPlan.map (fun i => i.dest_path)) = false
  ∧ exPlan.map (fun i => i.dest_path)
      = [".devcontainer/devcontainer.json", ".devcontainer/docker-compose.yml",
         "dev_mocks/dev_mock_authoriser.json", "dev_mocks/dev_mock_user.json",
         "app_src/Dockerfile"] :=
  ⟨by decide, by decide⟩

/-- C5 (amended): the planner iterates `sorted(tracked.items())`, so the
plan's item order is the ascending template-source-key order of the tracked
mapping (restricted to entries whose template resolves), not the ascending
order of destination paths. -/
theorem plan_sorted_by_template_src (digest : String → String) (fs : FS)
    (project_dir : String) (tracked templates vars mh : List (String × String))
    (force : Bool) :
    (_plan_updates digest fs project_dir tracked templates vars mh force).map
        (fun i => i.dest_path)
      = ((sortPairs tracked).filter (fun td => (lookupStr templates td.1).isSome)).map
          (fun td => td.2)
  ∧ List.Chain' (fun a b => pairLe a b = true) (sortPairs tracked) := by
  refine ⟨?_, chain_sortPairs tracked⟩
  rw [plan_updates_eq, List.map_map]
  rfl

/-- C6: the pyproject document coming out of a non-fatal run is the old one
rewritten with the refreshed manifest exactly when the run is not a dry run
and the plan has at least one `CREATE`/`UPDATE`/`FORCE` item, and is the
unchanged old document otherwise (in particular after a dry run or a
`SKIP`-only or empty plan). -/
theorem manifest_rewrite_condition (digest : String → String) (version : String)
    (fs : FS) (d : PyProject) (templates : List (String × String))
    (project_dir : String) (dry_run force : Bool) (m : Manifest)
    (hm : read_manifest d = some m)
    (hfw : falsyStr m.framework = false) (han : falsyStr m.app_name = false) :
    resultDoc (run_update digest version fs (some d) templates project_dir dry_run force)
      = some (if !dry_run && hasWrites (planOf digest fs m templates project_dir force) then
          write_manifest d (manifestAfter digest
            (_apply_updates (planOf digest fs m templates project_dir force) fs)
            m version project_dir)
        else d) := by
  rw [run_update_ok digest version fs d templates project_dir dry_run force m hm hfw han]
  cases dry_run <;> rfl

/-- Witness for C6: in the fixture run (not dry, one `SKIP` plus four
`CREATE`s) the document is rewritten with the refreshed manifest. -/
theorem manifest_rewrite_condition_witness :
    resultDoc exResult
      = some (if !false && hasWrites (planOf exDigest exFs exManifest exTemplates "proj" false) then
          write_manifest exDoc (manifestAfter exDigest
            (_apply_updates (planOf exDigest exFs exManifest exTemplates "proj" false) exFs)
            exManifest "0.1.0" "proj")
        else exDoc) :=
  manifest_rewrite_condition exDigest "0.1.0" exFs exDoc exTemplates "proj" false false
    exManifest rfl (by decide) (by decide)

/-- C7: the version guard warns exactly when both version strings parse as
dot-separated integer tuples and the running version is strictly below the
manifest's, and is a silent no-op whenever either string has a non-numeric
component; being a total function it never aborts. -/
theorem version_guard_advisory :
    (∀ running manifest_version rv mv,
        _parse_version running = some rv →
        _parse_version manifest_version = some mv →
        (_check_version running (some manifest_version) = true ↔ tupleLt rv mv = true))
  ∧ (∀ running manifest_version,
        _parse_version running = none ∨ _parse_version manifest_version = none →
        _check_version running (some manifest_version) = false) := by
  constructor
  · intro running mvs rv mv h1 h2
    rw [_check_version]
    simp [h1, h2]
  · intro running mvs h
    rw [_check_version]
    rcases h with h | h
    · simp [h]
    · cases hr : _parse_version running <;> simp [h, hr]

/-- Witness for C7: an older running version warns, a newer one does not,
and a non-numeric component silences the guard. -/
theorem version_guard_advisory_witness :
    _check_version "0.1.0" (some "0.2.0") = true
  ∧ _check_version "2.0.0" (some "1.9.9") = false
  ∧ _check_version "abc" (some "1.0") = false :=
  ⟨(version_guard_advisory.1 "0.1.0" "0.2.0" [0, 1, 0] [0, 2, 0] rfl rfl).mpr (by decide),
   by
    have h := version_guard_advisory.1 "2.0.0" "1.9.9" [2, 0, 0] [1, 9, 9] rfl rfl
    rw [Bool.eq_false_iff]
    intro hc
    exact absurd (h.mp hc) (by decide),
   version_guard_advisory.2 "abc" "1.0" (Or.inl (by decide))⟩

/-- C8: the plan consists of exactly one item for each tracked entry whose
bundled template file exists — entries with an unresolvable template are
silently dropped, never an error. -/
theorem plan_omits_unresolved_templates (digest : String → String) (fs : FS)
    (project_dir : String) (tracked templates vars mh : List (String × String))
    (force : Bool) :
    _plan_updates digest fs project_dir tracked templates vars mh force
      = ((sortPairs tracked).filter (fun td => (lookupStr templates td.1).isSome)).map
          (fun td => mkFileUpdate digest fs project_dir vars mh force td.2
            ((lookupStr templates td.1).getD ""))
  ∧ (_plan_updates digest fs project_dir tracked templates vars mh force).length
      = ((sortPairs tracked).filter
          (fun td => (lookupStr templates td.1).isSome)).length := by
  refine ⟨plan_updates_eq digest fs project_dir tracked templates vars mh force, ?_⟩
  rw [plan_updates_eq, List.length_map]

/-- C9: building a manifest, writing it into a pyproject document and
reading it back yields the built record, all fields included. -/
theorem build_write_read_roundtrip (digest : String → String) (fs : FS)
    (framework app_name tool_version project_dir : String) (d : PyProject) :
    read_manifest (write_manifest d
        (build_manifest digest fs framework app_name tool_version project_dir))
      = some (build_manifest digest fs framework app_name tool_version project_dir) :=
  manifest_roundtrip d _

/-- C2 counterexample: in the fixture (non-dry run with four `CREATE`s and
one `SKIP`, the SKIPped Dockerfile previously recorded as "sha256:orig" but
on disk hashing to "sha256:edited"), the rewritten manifest's entry for the
SKIPped path is the hash of the current on-disk content, not the prior
recorded hash. -/
theorem skip_hash_rewrite_counterexample :
    hasWrites exPlan = true
  ∧ exPlan.any (fun i => i.dest_path == "app_src/Dockerfile"
      && i.action == Action.SKIP) = true
  ∧ lookupStr exManifest.files "app_src/Dockerfile" = some "sha256:orig"
  ∧ ((resultDoc exResult).bind read_manifest).map
      (fun m2 => lookupStr m2.files "app_src/Dockerfile") = some (some "sha256:edited")
  ∧ ("sha256:edited" : String) ≠ "sha256:orig" :=
  ⟨by decide, by decide, by decide, by decide, by decide⟩

/-- C2 (amended): when a non-dry run with at least one write rewrites the
manifest, the entry for a `SKIP`ped destination path (whose on-disk content
`c` the run leaves unchanged) becomes the hash of `c` — which, because the
file was classified `SKIP`, differs from the hash the manifest recorded
before the run. -/
theorem skip_path_rehashed_on_rewrite (digest : String → String) (version : String)
    (fs : FS) (d : PyProject) (templates : List (String × String))
    (project_dir : String) (force : Bool) (m : Manifest) (item : FileUpdate)
    (c : String)
    (hm : read_manifest d = some m)
    (hfw : falsyStr m.framework = false) (han : falsyStr m.app_name = false)
    (hW : hasWrites (planOf digest fs m templates project_dir force) = true)
    (hmem : item ∈ planOf digest fs m templates project_dir force)
    (hskip : item.action = Action.SKIP)
    (hframe : ∀ j ∈ planOf digest fs m templates project_dir force,
      writeTarget j ≠ item.dest_full)
    (hc : fs.read item.dest_full = some c) :
    run_update digest version fs (some d) templates project_dir false force
      = UpdateResult.ok (_apply_updates (planOf digest fs m templates project_dir force) fs)
          (write_manifest d (manifestAfter digest
            (_apply_updates (planOf digest fs m templates project_dir force) fs)
            m version project_dir))
  ∧ lookupStr (manifestAfter digest
        (_apply_updates (planOf digest fs m templates project_dir force) fs)
        m version project_dir).files item.dest_path = some (hash_file digest c)
  ∧ lookupStr m.files item.dest_path ≠ some (hash_file digest c) := by
  obtain ⟨hfull, hact, src, hsrc, -⟩ :=
    mem_plan_shape digest fs project_dir (get_tracked_files (m.framework.getD ""))
      templates (templateVarsOf m) m.files force item hmem
  refine ⟨?_, ?_, ?_⟩
  · rw [run_update_ok digest version fs d templates project_dir false force m hm hfw han]
    simp [hW]
  · have hread2 : FS.read (_apply_updates (planOf digest fs m templates project_dir force) fs)
        (project_dir ++ "/" ++ item.dest_path) = some c := by
      rw [← hfull, apply_frame _ _ _ hframe]
      exact hc
    have hlk := lookup_hashes digest
      (_apply_updates (planOf digest fs m templates project_dir force) fs)
      project_dir (src, item.dest_path) c
      (sortPairs (get_tracked_files (m.framework.getD "")))
      (sorted_tracked_dests_nodup _) hsrc hread2
    simpa [manifestAfter, build_manifest] using hlk
  · obtain ⟨content, hrc, mh, hlm, hne⟩ :=
      classify_skip_inv digest fs (project_dir ++ "/" ++ item.dest_path) m.files
        item.dest_path force (hact.symm.trans hskip)
    rw [← hfull] at hrc
    have hcc : content = c := Option.some.inj (hrc.symm.trans hc)
    subst hcc
    rw [hlm]
    intro hcon
    exact hne (Option.some.inj hcon).symm

/-- Witness for C2 (amended): the fixture run, with the SKIPped Dockerfile
item and its on-disk content "edited". -/
theorem skip_path_rehashed_on_rewrite_witness :
    run_update exDigest "0.1.0" exFs (some exDoc) exTemplates "proj" false false
      = UpdateResult.ok
          (_apply_updates (planOf exDigest exFs exManifest exTemplates "proj" false) exFs)
          (write_manifest exDoc (manifestAfter exDigest
            (_apply_updates (planOf exDigest exFs exManifest exTemplates "proj" false) exFs)
            exManifest "0.1.0" "proj"))
  ∧ lookupStr (manifestAfter exDigest
        (_apply_updates (planOf exDigest exFs exManifest exTemplates "proj" false) exFs)
        exManifest "0.1.0" "proj").files "app_src/Dockerfile"
      = some (hash_file exDigest "edited")
  ∧ lookupStr exManifest.files "app_src/Dockerfile" ≠ some (hash_file exDigest "edited") :=
  skip_path_rehashed_on_rewrite exDigest "0.1.0" exFs exDoc exTemplates "proj" false
    exManifest ⟨"app_src/Dockerfile", "proj/app_src/Dockerfile", "FROM", Action.SKIP⟩
    "edited" rfl (by decide) (by decide) (by decide) (by decide) rfl (by decide) rfl

/-- C10: whenever the manifest is rewritten (non-dry run with at least one
write), the rewritten record's `tool_version` is the running tool's
version, replacing whatever was recorded before. -/
theorem rewrite_sets_tool_version (digest : String → String) (version : String)
    (fs : FS) (d : PyProject) (templates : List (String × String))
    (project_dir : String) (force : Bool) (m : Manifest)
    (hm : read_manifest d = some m)
    (hfw : falsyStr m.framework = false) (han : falsyStr m.app_name = false)
    (hW : hasWrites (planOf digest fs m templates project_dir force) = true) :
    ((resultDoc (run_update digest version fs (some d) templates project_dir false force)).bind
        read_manifest).map (fun m2 => m2.tool_version) = some (some version) := by
  rw [run_update_ok digest version fs d templates project_dir false force m hm hfw han]
  simp [resultDoc, hW, manifest_roundtrip, manifestAfter, build_manifest]

/-- Witness for C10: the fixture run rewrites tool_version "0.1.0" (the
running version) into the manifest. -/
theorem rewrite_sets_tool_version_witness :
    ((resultDoc (run_update exDigest "0.1.0" exFs (some exDoc) exTemplates "proj" false false)).bind
        read_manifest).map (fun m2 => m2.tool_version) = some (some "0.1.0") :=
  rewrite_sets_tool_version exDigest "0.1.0" exFs exDoc exTemplates "proj" false
    exManifest rfl (by decide) (by decide) (by decide)

end GdsIdeaAppKit
